import Mathlib

/-!
Verification of the cli-gateway backend execution and streaming-translation
engine (openclaw-plugins repository).

The definitions below are a shallow embedding of the TypeScript sources:
  * `cli-gateway/src/backends/codex.ts`   (codex adapter, retry decorator)
  * the PTY-based claude-code adapter     (formatConversationPrompt, onData/onExit/onAbort)
  * `cli-gateway/src/session-map.ts`      (SQLite-backed session resolver/store)
  * `cli-gateway/src/openai-format.ts`    (SSE / non-streaming response encoder)
  * the environment allow-list utility    (cleanEnv)

Host primitives (JSON.parse, SHA-256, string split/trim) are modelled
explicitly as executable Lean functions.  Machine integers are modelled as
`Int`/`Nat` (token counts and timestamps never approach overflow in the
claims considered).  Callback-driven process I/O is modelled as explicit
state passing over event lists.
-/

namespace CliGateway

/-! ## Canonical event model (`types.ts`) -/

/-- Token usage triple carried by a terminal `done` chunk (`UsageInfo`). -/
structure UsageInfo where
  prompt_tokens : Int
  completion_tokens : Int
  total_tokens : Int
deriving DecidableEq, Repr

/-- Canonical output unit (`ChatChunk`): a tagged variant over `content`,
`done` and `error`, exactly as the TypeScript discriminated record. -/
inductive ChatChunk where
  | content (content : String)
  | done (finishReason : String) (sessionId : Option String) (usage : Option UsageInfo)
  | error (error : String)
deriving DecidableEq, Repr

/-- `true` on the terminal variants (`done`/`error`). -/
def ChatChunk.isTerminal : ChatChunk → Bool
  | .content _ => false
  | .done _ _ _ => true
  | .error _ => true

/-- `true` on `content` chunks. -/
def ChatChunk.isContent : ChatChunk → Bool
  | .content _ => true
  | _ => false

/-- `true` on `error` chunks. -/
def ChatChunk.isError : ChatChunk → Bool
  | .error _ => true
  | _ => false

/-- A chunk sequence of the shape promised by the spec: zero or more
`content` chunks followed by exactly one terminal chunk, nothing after. -/
def wellFormedSeq (l : List ChatChunk) : Bool :=
  match l.getLast? with
  | none => false
  | some t => t.isTerminal && l.dropLast.all ChatChunk.isContent

/-! ## Retry decorator (`codex.ts`, `run` — outer async iterator)

The decorator is modelled as a pure trace function.  `attempts n` is the
chunk sequence the `n`-th spawned subprocess produces (the code respawns
`spawnCodex` with identical arguments on every retry).  The trace records,
besides the chunks returned to the consumer, the decorator's side effects:
killing the current child, the backoff delay, and respawning. -/

/-- `MAX_RETRIES` from `codex.ts` (up to 3 total attempts). -/
def MAX_RETRIES : Nat := 2

/-- One observable step of the retry decorator: a chunk delivered to the
consumer, a `SIGTERM` to the current child, a backoff wait (milliseconds),
or the spawn of attempt number `n` (0-based). -/
inductive RetryEvent where
  | chunk (c : ChatChunk)
  | killChild
  | wait (ms : Nat)
  | respawn (n : Nat)
deriving DecidableEq, Repr

/-- The annotation applied at `codex.ts:354-356`: errors surfaced after at
least one retry carry the total attempt count. -/
def annotateError (attempt : Nat) (e : String) : String :=
  if attempt > 0 then e ++ " (after " ++ toString (attempt + 1) ++ " attempts)" else e

/-- Outcome of draining one attempt's chunks in the outer iterator of
`codex.ts` `run`: either the inner sequence was consumed to its end, or a
retryable error was hit (no content delivered yet, retries remaining). -/
inductive AttemptOutcome where
  | finished
  | retryNeeded
deriving DecidableEq, Repr

/-- Drain the current attempt's remaining chunks, for a run during which
the abort signal never fires (`killed` stays `false`).  `gotContent` is the
decorator's flag recording whether a `content` chunk has been delivered to
the consumer.  `content` and `done` chunks pass through; an `error` chunk
either triggers a retry (when no content was delivered and
`attempt < MAX_RETRIES`) — in which case consumption of this attempt stops
and nothing is emitted for the error — or passes through, annotated via
`annotateError`. -/
def consumeAttempt (attempt : Nat) : Bool → List ChatChunk → List RetryEvent × AttemptOutcome
  | _, [] => ([], .finished)
  | _, ChatChunk.content c :: t =>
      let r := consumeAttempt attempt true t
      (.chunk (.content c) :: r.1, r.2)
  | gotContent, ChatChunk.done fr sid u :: t =>
      let r := consumeAttempt attempt gotContent t
      (.chunk (.done fr sid u) :: r.1, r.2)
  | gotContent, ChatChunk.error e :: t =>
      if gotContent = false ∧ attempt < MAX_RETRIES then
        ([], .retryNeeded)
      else
        let r := consumeAttempt attempt gotContent t
        (.chunk (.error (annotateError attempt e)) :: r.1, r.2)

/-- Attempt loop of the decorator.  Every attempt is entered with
`gotContent = false` (a retry is only taken before any content was
delivered).  On a retry the decorator kills the current child, waits
`1000 * attempt` ms (after incrementing `attempt`), and respawns.  `fuel`
is a structural bound on the number of attempts; `MAX_RETRIES + 1` is
always sufficient since `consumeAttempt` requests a retry only while
`attempt < MAX_RETRIES`. -/
def retryLoop (attempts : Nat → List ChatChunk) : Nat → Nat → List RetryEvent
  | _, 0 => []
  | attempt, fuel + 1 =>
      match consumeAttempt attempt false (attempts attempt) with
      | (evs, .finished) => evs
      | (evs, .retryNeeded) =>
          evs ++ .killChild :: .wait (1000 * (attempt + 1)) :: .respawn (attempt + 1) ::
            retryLoop attempts (attempt + 1) fuel

/-- Full trace of one decorated run (attempt 0 spawned first). -/
def retryTrace (attempts : Nat → List ChatChunk) : List RetryEvent :=
  .respawn 0 :: retryLoop attempts 0 (MAX_RETRIES + 1)

/-- The chunks the consumer observes in a decorated run. -/
def retryVisible (attempts : Nat → List ChatChunk) : List ChatChunk :=
  (retryTrace attempts).filterMap fun
    | .chunk c => some c
    | _ => none

/-! ## JSON model

The adapters call the host `JSON.parse` on each protocol line.  The
functions below model the parser as an executable recursive-descent parser
over the character list, with a fuel bound (`length + 1` always suffices:
every recursive call first consumes at least one character).  Numbers are
represented by their integer part (the protocols carry only integer token
counts); fractional and exponent parts are accepted syntactically.
Duplicate object keys keep the last occurrence, as in JavaScript. -/

/-- JSON value tree. -/
inductive Json where
  | null
  | bool (b : Bool)
  | num (n : Int)
  | str (s : String)
  | arr (elems : List Json)
  | obj (fields : List (String × Json))

/-- JSON whitespace. -/
def isWsChar (c : Char) : Bool :=
  c = ' ' || c = '\t' || c = '\n' || c = '\x0d'

/-- Drop leading JSON whitespace. -/
def skipWs : List Char → List Char
  | [] => []
  | c :: rest => if isWsChar c then skipWs rest else c :: rest

/-- Hexadecimal digit value. -/
def hexVal (c : Char) : Option Nat :=
  if '0' ≤ c && c ≤ '9' then some (c.toNat - 48)
  else if 'a' ≤ c && c ≤ 'f' then some (c.toNat - 87)
  else if 'A' ≤ c && c ≤ 'F' then some (c.toNat - 55)
  else none

/-- Decimal digit value. -/
def digitVal (c : Char) : Option Nat :=
  if '0' ≤ c && c ≤ '9' then some (c.toNat - 48) else none

/-- Longest leading run of decimal digits, and its value. -/
def takeDigits : List Char → List Nat × List Char
  | [] => ([], [])
  | c :: rest =>
      match digitVal c with
      | some d => let r := takeDigits rest; (d :: r.1, r.2)
      | none => ([], c :: rest)

/-- Fold digits into a natural number value. -/
def digitsToNat (ds : List Nat) : Nat :=
  ds.foldl (fun acc d => acc * 10 + d) 0

/-- Match a literal keyword (`null` / `true` / `false`). -/
def dropLit : List Char → List Char → Option (List Char)
  | [], cs => some cs
  | _, [] => none
  | l :: ls, c :: cs => if c = l then dropLit ls cs else none

/-- Body of a JSON string after the opening quote, handling escapes. -/
def parseStringChars : Nat → List Char → Option (List Char × List Char)
  | 0, _ => none
  | _, [] => none
  | fuel + 1, c :: rest =>
      if c = '"' then some ([], rest)
      else if c = '\\' then
        match rest with
        | [] => none
        | e :: rest2 =>
            let esc : Option (Char × List Char) :=
              if e = '"' then some ('"', rest2)
              else if e = '\\' then some ('\\', rest2)
              else if e = '/' then some ('/', rest2)
              else if e = 'b' then some ('\x08', rest2)
              else if e = 'f' then some ('\x0c', rest2)
              else if e = 'n' then some ('\n', rest2)
              else if e = 'r' then some ('\x0d', rest2)
              else if e = 't' then some ('\t', rest2)
              else if e = 'u' then
                match rest2 with
                | h1 :: h2 :: h3 :: h4 :: rest3 =>
                    match hexVal h1, hexVal h2, hexVal h3, hexVal h4 with
                    | some a, some b, some c2, some d =>
                        some (Char.ofNat (a * 4096 + b * 256 + c2 * 16 + d), rest3)
                    | _, _, _, _ => none
                | _ => none
              else none
            match esc with
            | none => none
            | some (ch, rest3) =>
                match parseStringChars fuel rest3 with
                | none => none
                | some (tail, rem) => some (ch :: tail, rem)
      else
        match parseStringChars fuel rest with
        | none => none
        | some (tail, rem) => some (c :: tail, rem)

/-- JSON number: optional minus, integer part without leading zeros,
optional fraction and exponent (accepted, value kept to the integer
part). -/
def parseNumber (cs : List Char) : Option (Int × List Char) :=
  let (neg, cs1) : Bool × List Char :=
    match cs with
    | '-' :: rest => (true, rest)
    | _ => (false, cs)
  match takeDigits cs1 with
  | ([], _) => none
  | (d :: ds, cs2) =>
      if d = 0 && ds ≠ [] then none
      else
        let intPart : Int := Int.ofNat (digitsToNat (d :: ds))
        let v : Int := if neg then -intPart else intPart
        let afterFrac : Option (List Char) :=
          match cs2 with
          | '.' :: cs3 =>
              match takeDigits cs3 with
              | ([], _) => none
              | (_ :: _, cs4) => some cs4
          | _ => some cs2
        match afterFrac with
        | none => none
        | some cs5 =>
            match cs5 with
            | 'e' :: cs6 | 'E' :: cs6 =>
                let cs7 := match cs6 with
                  | '+' :: r => r
                  | '-' :: r => r
                  | r => r
                match takeDigits cs7 with
                | ([], _) => none
                | (_ :: _, cs8) => some (v, cs8)
            | _ => some (v, cs5)

mutual

/-- One JSON value (leading whitespace skipped). -/
def parseJsonVal : Nat → List Char → Option (Json × List Char)
  | 0, _ => none
  | fuel + 1, cs =>
      match skipWs cs with
      | [] => none
      | c :: rest =>
          if c = '"' then
            match parseStringChars (fuel + 1) rest with
            | none => none
            | some (body, rem) => some (.str (String.mk body), rem)
          else if c = '\x7b' then
            match skipWs rest with
            | '\x7d' :: rem => some (.obj [], rem)
            | rest2 => match parseObjRest fuel rest2 with
                | none => none
                | some (fields, rem) => some (.obj fields, rem)
          else if c = '[' then
            match skipWs rest with
            | ']' :: rem => some (.arr [], rem)
            | rest2 => match parseArrayRest fuel rest2 with
                | none => none
                | some (elems, rem) => some (.arr elems, rem)
          else if c = 'n' then
            (dropLit ['u', 'l', 'l'] rest).map (fun rem => (.null, rem))
          else if c = 't' then
            (dropLit ['r', 'u', 'e'] rest).map (fun rem => (.bool true, rem))
          else if c = 'f' then
            (dropLit ['a', 'l', 's', 'e'] rest).map (fun rem => (.bool false, rem))
          else
            (parseNumber (c :: rest)).map (fun (n, rem) => (.num n, rem))

/-- Members of a JSON object after `{` (non-empty case). -/
def parseObjRest : Nat → List Char → Option (List (String × Json) × List Char)
  | 0, _ => none
  | fuel + 1, cs =>
      match skipWs cs with
      | '"' :: rest =>
          match parseStringChars (fuel + 1) rest with
          | none => none
          | some (key, rem1) =>
              match skipWs rem1 with
              | ':' :: rem2 =>
                  match parseJsonVal fuel rem2 with
                  | none => none
                  | some (v, rem3) =>
                      match skipWs rem3 with
                      | ',' :: rem4 =>
                          match parseObjRest fuel rem4 with
                          | none => none
                          | some (fields, rem5) =>
                              some ((String.mk key, v) :: fields, rem5)
                      | '\x7d' :: rem4 => some ([(String.mk key, v)], rem4)
                      | _ => none
              | _ => none
      | _ => none

/-- Elements of a JSON array after `[` (non-empty case). -/
def parseArrayRest : Nat → List Char → Option (List Json × List Char)
  | 0, _ => none
  | fuel + 1, cs =>
      match parseJsonVal fuel cs with
      | none => none
      | some (v, rem1) =>
          match skipWs rem1 with
          | ',' :: rem2 =>
              match parseArrayRest fuel rem2 with
              | none => none
              | some (elems, rem3) => some (v :: elems, rem3)
          | ']' :: rem2 => some ([v], rem2)
          | _ => none

end

/-- Model of the host `JSON.parse`: parse one value, demand that only
whitespace follows, fail (`none`) otherwise — as `JSON.parse` throws. -/
def jsonParse (s : String) : Option Json :=
  match parseJsonVal (s.length + 1) s.toList with
  | none => none
  | some (j, rest) => if skipWs rest = [] then some j else none

/-- Field access on a parsed object (`event.field`); duplicate keys keep
the last occurrence as in JavaScript. -/
def Json.getField (j : Json) (k : String) : Option Json :=
  match j with
  | .obj fields => ((fields.filter (fun f => f.1 = k)).getLast?).map (fun f => f.2)
  | _ => none

/-- The string payload of a JSON value, if it is a string. -/
def Json.asStr : Json → Option String
  | .str s => some s
  | _ => none

/-- The integer payload of a JSON value, if it is a number. -/
def Json.asNum : Json → Option Int
  | .num n => some n
  | _ => none

/-- String field of an event object (`event.field as string`). -/
def Json.strField (j : Json) (k : String) : Option String :=
  (j.getField k).bind Json.asStr

/-- Numeric field with JavaScript `?? 0` defaulting (`usage.field ?? 0`):
`0` when the field is absent; a non-numeric value is out of the protocol's
schema and also modelled as `0`. -/
def Json.numFieldD (j : Json) (k : String) : Int :=
  ((j.getField k).bind Json.asNum).getD 0

/-! ## Host string primitives

`data.toString().split("\n")` and `String.prototype.trim` are modelled
explicitly.  `splitLines` is JavaScript `split("\n")`: it always returns at
least one (possibly empty) segment, one more segment per newline. -/

/-- JavaScript `s.split("\n")` on the character list. -/
def splitLines : List Char → List (List Char)
  | [] => [[]]
  | c :: rest =>
      if c = '\n' then [] :: splitLines rest
      else
        match splitLines rest with
        | [] => [[c]]
        | h :: t => (c :: h) :: t

/-- JavaScript word character (`\w`). -/
def isWordChar (c : Char) : Bool := c.isAlphanum || c = '_'

/-- JavaScript whitespace (`\s`), restricted to the ASCII space characters
that occur in the protocols. -/
def isJsWs (c : Char) : Bool :=
  c = ' ' || c = '\t' || c = '\n' || c = '\x0d' || c = '\x0c' || c = '\x0b'

/-! ## Codex adapter (`backends/codex.ts`) -/

/-- `text.replace(/\[\[[\w_]+\]\]\s*/g, "")` from `processLine`: strip
Codex conversation markers such as `[[reply_to_current]]` together with
trailing whitespace.  Scans left to right; at every position either the
marker pattern matches and is dropped, or one character is kept.  `fuel`
is a structural bound (`length + 1` always suffices). -/
def stripMarkersAux : Nat → List Char → List Char
  | 0, cs => cs
  | _, [] => []
  | fuel + 1, c :: rest =>
      match c :: rest with
      | '[' :: '[' :: rest2 =>
          let w := rest2.takeWhile isWordChar
          let rest3 := rest2.dropWhile isWordChar
          if w ≠ [] then
            match rest3 with
            | ']' :: ']' :: rest4 => stripMarkersAux fuel (rest4.dropWhile isJsWs)
            | _ => c :: stripMarkersAux fuel rest
          else c :: stripMarkersAux fuel rest
      | _ => c :: stripMarkersAux fuel rest

/-- Marker stripping on strings. -/
def stripMarkers (s : String) : String :=
  String.mk (stripMarkersAux (s.length + 1) s.toList)

/-- JavaScript `String.prototype.trim`, for the ASCII whitespace occurring
in the protocols: drop leading and trailing whitespace characters. -/
def jsTrim (s : String) : String :=
  String.mk (((s.toList.dropWhile isJsWs).reverse.dropWhile isJsWs).reverse)

/-- `processLine` from `codex.ts` (lines 57–113): parse one trimmed stdout
line as JSON and map the codex event to canonical chunks.  Returns the
chunks enqueued and, for a `thread.started` event, the captured native
thread id (the `sessionMapping.set` side effect).  Unparseable lines are
silently discarded.  Out-of-schema payloads (non-string `thread_id` or
`message`, non-object `usage`) are modelled by their fallback branch. -/
def processLine (sessionId : String) (trimmed : String) : List ChatChunk × Option String :=
  match jsonParse trimmed with
  | none => ([], none)
  | some event =>
      let ty := event.strField "type"
      if ty = some "thread.started" then
        match event.strField "thread_id" with
        | some t => if t ≠ "" then ([], some t) else ([], none)
        | none => ([], none)
      else if ty = some "item.completed" then
        match event.getField "item" with
        | some item =>
            if item.strField "type" = some "agent_message" then
              match item.strField "text" with
              | some rawText =>
                  let text := jsTrim (stripMarkers rawText)
                  if text ≠ "" then ([ChatChunk.content text], none) else ([], none)
              | none => ([], none)
            else ([], none)
        | none => ([], none)
      else if ty = some "turn.completed" then
        let usage : Option UsageInfo :=
          match event.getField "usage" with
          | some (Json.obj fields) =>
              let u := Json.obj fields
              some { prompt_tokens := u.numFieldD "input_tokens"
                     completion_tokens := u.numFieldD "output_tokens"
                     total_tokens := u.numFieldD "input_tokens" + u.numFieldD "output_tokens" }
          | _ => none
        ([ChatChunk.done "stop" (some sessionId) usage], none)
      else if ty = some "turn.failed" then
        let msg := match event.getField "error" with
          | some (Json.str s) => s
          | some (Json.obj fields) => (((Json.obj fields).strField "message")).getD "Turn failed"
          | _ => "Turn failed"
        ([ChatChunk.error msg], none)
      else if ty = some "error" then
        ([ChatChunk.error ((event.strField "message").getD "Unknown codex error")], none)
      else ([], none)

/-- Per-request state of one `spawnCodex` bridge: the partial-line buffer,
the FIFO chunk queue, the captured native thread id for this session, and
the finished flag set by `finish()`. -/
structure CodexSpawnState where
  lineBuf : List Char
  queue : List ChatChunk
  threadId : Option String
  finished : Bool
deriving DecidableEq, Repr

/-- Fresh bridge state. -/
def initCodexState : CodexSpawnState :=
  { lineBuf := [], queue := [], threadId := none, finished := false }

/-- Handle one full (`\n`-terminated) line: trim, skip if empty, otherwise
run `processLine`, appending its chunks and recording a captured thread
id. -/
def applyLine (sessionId : String) (st : CodexSpawnState) (line : List Char) : CodexSpawnState :=
  let trimmed := jsTrim (String.mk line)
  if trimmed = "" then st
  else
    let r := processLine sessionId trimmed
    { st with queue := st.queue ++ r.1, threadId := r.2.or st.threadId }

/-- The chunks one raw stdout line contributes (used to characterise whole
runs). -/
def lineChunksOf (sessionId : String) (line : List Char) : List ChatChunk :=
  let trimmed := jsTrim (String.mk line)
  if trimmed = "" then [] else (processLine sessionId trimmed).1

/-- `child.stdout.on("data", ...)` from `codex.ts` (lines 123–131): append
the data to the line buffer, split on `\n`, keep the trailing partial
segment, process every complete line. -/
def codexOnData (sessionId : String) (st : CodexSpawnState) (data : String) : CodexSpawnState :=
  let parts := splitLines (st.lineBuf ++ data.toList)
  let st1 := { st with lineBuf := parts.getLastD [] }
  parts.dropLast.foldl (applyLine sessionId) st1

/-- The synthetic message of the exit-error chunk; a `null` exit code (the
process was terminated by a signal) interpolates as `"null"`. -/
def exitErrorMsg (exitCode : Option Int) : String :=
  "CLI exited with code " ++ (match exitCode with | some n => toString n | none => "null")

/-- `child.on("close", ...)` from `codex.ts` (lines 133–145): process a
non-empty remainder as a final line, then — whenever the exit code is not
`0` (including `null`) — enqueue a synthetic `error` chunk, then finish.
There is no check whether a terminal chunk was already enqueued. -/
def codexOnClose (sessionId : String) (st : CodexSpawnState) (exitCode : Option Int) :
    CodexSpawnState :=
  let st1 :=
    if jsTrim (String.mk st.lineBuf) ≠ "" then
      { applyLine sessionId st st.lineBuf with lineBuf := [] }
    else st
  let st2 :=
    if exitCode ≠ some 0 then
      { st1 with queue := st1.queue ++ [ChatChunk.error (exitErrorMsg exitCode)] }
    else st1
  { st2 with finished := true }

/-- The chunk sequence one codex subprocess delivers to its consumer:
stdout arrives as the data events `datas`, then the process closes with
`exitCode`.  The bridge's iterator drains the queue in FIFO order before
signalling end, so the consumer observes exactly the final queue. -/
def spawnCodexChunks (sessionId : String) (datas : List String) (exitCode : Option Int) :
    List ChatChunk :=
  (codexOnClose sessionId (datas.foldl (codexOnData sessionId) initCodexState) exitCode).queue

/-- The simulated adapter of the retry-transparency scenario: attempts 0
and 1 fail with an error before any content, attempt 2 streams one content
chunk and then `done`. -/
def failTwiceAdapter : Nat → List ChatChunk := fun n =>
  if n = 0 then [ChatChunk.error "stream error"]
  else if n = 1 then [ChatChunk.error "stream error"]
  else [ChatChunk.content "hi", ChatChunk.done "stop" none none]

/-- The simulated adapter of the retry-suppression scenario: one `content`
chunk followed by an error. -/
def contentThenErrorAdapter : Nat → List ChatChunk := fun n =>
  if n = 0 then [ChatChunk.content "hi", ChatChunk.error "boom"] else []

/-- Concatenation helper for list-splitting lemmas: prepend `l` to the
first segment of a split (or make it the only segment). -/
def joinHead (l : List Char) : List (List Char) → List (List Char)
  | [] => [l]
  | h :: t => (l ++ h) :: t

/-- Concatenation of all data events (the full stdout byte stream). -/
def concatAll : List String → String
  | [] => ""
  | s :: rest => s ++ concatAll rest

/-- Codex run events as seen by the adapter: stdout data callbacks, the
request's abort signal firing, and the process `close` callback (a `none`
exit code is Node's `null` — the process was terminated by a signal). -/
inductive CodexEvent where
  | data (s : String)
  | abortSignal
  | close (exitCode : Option Int)

/-- State of one codex `run`: the spawn bridge plus the outer `killed`
flag and the number of `SIGTERM`s sent to the child. -/
structure CodexRunState where
  spawn : CodexSpawnState
  killed : Bool
  sigterms : Nat

/-- Fresh codex run state. -/
def initCodexRunState : CodexRunState :=
  { spawn := initCodexState, killed := false, sigterms := 0 }

/-- One codex run event.  The abort listener (`codex.ts` lines 293–312)
sets `killed` and sends `SIGTERM`; the `close` handler (lines 133–145) runs
`codexOnClose`, which enqueues the synthetic exit-error chunk with no
`killed` guard. -/
def codexRunStep (sessionId : String) (st : CodexRunState) : CodexEvent → CodexRunState
  | .data s => { st with spawn := codexOnData sessionId st.spawn s }
  | .abortSignal => { st with killed := true, sigterms := st.sigterms + 1 }
  | .close code => { st with spawn := codexOnClose sessionId st.spawn code }

/-- A whole codex run as an event fold. -/
def codexRun (sessionId : String) (events : List CodexEvent) : CodexRunState :=
  events.foldl (codexRunStep sessionId) initCodexRunState

/-! ## PTY-based claude-code adapter -/

/-- Character-range test used by the ANSI-escape regex classes. -/
def inRange (lo hi : Nat) (c : Char) : Bool :=
  decide (lo ≤ c.toNat ∧ c.toNat ≤ hi)

/-- `stripAnsi`: the adapter's ANSI-escape regex, replaced globally by the
empty string.  After `\x1B` the alternatives are, in order: a single
character of the class `@-Z` plus the range backslash–underscore (so
`0x40–0x5A` or `0x5C–0x5F`); a CSI sequence `[`, parameter bytes
`0x30–0x3F`, intermediate bytes `0x20–0x2F`, one final byte `0x40–0x7E`;
and two OSC alternatives starting with `]` — dead code, because `]`
(0x5D) already falls in the first character class.  At each position
either the pattern matches and is dropped, or one character is kept and
scanning resumes after it. -/
def stripAnsiAux : Nat → List Char → List Char
  | 0, cs => cs
  | _, [] => []
  | fuel + 1, c :: rest =>
      if c = '\x1b' then
        match rest with
        | [] => [c]
        | d :: rest2 =>
            if inRange 0x40 0x5a d || inRange 0x5c 0x5f d then
              stripAnsiAux fuel rest2
            else if d = '[' then
              let ps := rest2.dropWhile (inRange 0x30 0x3f)
              let is := ps.dropWhile (inRange 0x20 0x2f)
              match is with
              | f :: rest3 =>
                  if inRange 0x40 0x7e f then stripAnsiAux fuel rest3
                  else c :: stripAnsiAux fuel rest
              | [] => c :: stripAnsiAux fuel rest
            else c :: stripAnsiAux fuel rest
      else c :: stripAnsiAux fuel rest

/-- `stripAnsi` on strings (`fuel := length + 1` always suffices). -/
def stripAnsi (s : String) : String :=
  String.mk (stripAnsiAux (s.length + 1) s.toList)

/-- The chunks one trimmed PTY line produces (`onData` inner loop of the
claude-code adapter): `assistant` events yield one `content` chunk per
text block in order; `result` events yield `done` (subtype `success`,
with renamed usage and the native session id) or `error` (any other
subtype, message from `event.result` or a generic fallback); system/hook
events and unparseable lines are discarded. -/
def claudeProcessLine (trimmed : String) : List ChatChunk :=
  match jsonParse trimmed with
  | none => []
  | some event =>
      let ty := event.strField "type"
      if ty = some "assistant" then
        match event.getField "message" with
        | some msg =>
            match msg.getField "content" with
            | some (Json.arr blocks) =>
                blocks.flatMap fun b =>
                  match b.strField "type", b.strField "text" with
                  | some "text", some t => [ChatChunk.content t]
                  | _, _ => []
            | _ => []
        | none => []
      else if ty = some "result" then
        if event.strField "subtype" = some "success" then
          let usage : Option UsageInfo :=
            match event.getField "usage" with
            | some (Json.obj fields) =>
                let u := Json.obj fields
                some { prompt_tokens := u.numFieldD "input_tokens"
                       completion_tokens := u.numFieldD "output_tokens"
                       total_tokens := u.numFieldD "input_tokens" + u.numFieldD "output_tokens" }
            | _ => none
          [ChatChunk.done "stop" (event.strField "session_id") usage]
        else
          [ChatChunk.error ((event.strField "result").getD "Unknown error from CLI")]
      else []

/-- Remainder handling inside the PTY `onExit` handler: the final partial
line is parsed and only a `result`/`success` event enqueues a `done` chunk
(a failed result or any other event in the remainder is dropped). -/
def claudeRemainderChunks (trimmed : String) : List ChatChunk :=
  match jsonParse trimmed with
  | none => []
  | some event =>
      if event.strField "type" = some "result" then
        if event.strField "subtype" = some "success" then
          let usage : Option UsageInfo :=
            match event.getField "usage" with
            | some (Json.obj fields) =>
                let u := Json.obj fields
                some { prompt_tokens := u.numFieldD "input_tokens"
                       completion_tokens := u.numFieldD "output_tokens"
                       total_tokens := u.numFieldD "input_tokens" + u.numFieldD "output_tokens" }
            | _ => none
          [ChatChunk.done "stop" (event.strField "session_id") usage]
        else []
      else []

/-- Events of one PTY-based claude-code run: data callbacks, the abort
signal, and process exit. -/
inductive PtyEvent where
  | data (s : String)
  | abortSignal
  | exit (exitCode : Int)

/-- Per-request state of the PTY bridge: partial-line buffer, FIFO chunk
queue, the `killed` flag set by `onAbort`/`kill()`, the finished flag set
by `finish()`, and the number of `ptyProcess.kill()` calls. -/
structure PtyState where
  lineBuf : List Char
  queue : List ChatChunk
  killed : Bool
  finished : Bool
  killCalls : Nat
deriving DecidableEq, Repr

/-- Fresh PTY bridge state. -/
def initPtyState : PtyState :=
  { lineBuf := [], queue := [], killed := false, finished := false, killCalls := 0 }

/-- Handle one full PTY line: trim, skip if empty, otherwise enqueue the
line's chunks. -/
def ptyApplyLine (st : PtyState) (l : List Char) : PtyState :=
  let trimmed := jsTrim (String.mk l)
  if trimmed = "" then st
  else { st with queue := st.queue ++ claudeProcessLine trimmed }

/-- `ptyProcess.onData`: strip ANSI escapes, append to the line buffer,
split on `\n`, keep the trailing partial segment, process every complete
line. -/
def ptyOnData (st : PtyState) (data : String) : PtyState :=
  let parts := splitLines (st.lineBuf ++ (stripAnsi data).toList)
  let st1 := { st with lineBuf := parts.getLastD [] }
  parts.dropLast.foldl ptyApplyLine st1

/-- `ptyProcess.onExit`: process a non-empty remainder (success results
only), then enqueue the synthetic exit-error chunk only when the exit code
is non-zero AND the process was not killed by cancellation, then finish. -/
def ptyOnExit (st : PtyState) (exitCode : Int) : PtyState :=
  let st1 :=
    if jsTrim (String.mk st.lineBuf) ≠ "" then
      { st with queue := st.queue ++ claudeRemainderChunks (jsTrim (String.mk st.lineBuf))
                lineBuf := [] }
    else st
  let st2 :=
    if exitCode ≠ 0 ∧ st1.killed = false then
      { st1 with queue := st1.queue ++
          [ChatChunk.error ("CLI exited with code " ++ toString exitCode)] }
    else st1
  { st2 with finished := true }

/-- `onAbort` (claude-code adapter): set `killed`, kill the PTY process,
and `finish()` the bridge immediately — no chunk is enqueued. -/
def ptyOnAbort (st : PtyState) : PtyState :=
  { st with killed := true, killCalls := st.killCalls + 1, finished := true }

/-- One PTY run event. -/
def ptyStep (st : PtyState) : PtyEvent → PtyState
  | .data s => ptyOnData st s
  | .abortSignal => ptyOnAbort st
  | .exit code => ptyOnExit st code

/-- A whole PTY run as an event fold.  The bridge iterator drains the
queue in FIFO order before signalling end, so the consumer observes the
final queue and then end-of-sequence (no terminal marker of its own). -/
def ptyRun (events : List PtyEvent) : PtyState :=
  events.foldl ptyStep initPtyState

/-! ## Conversation formatting (claude-code PTY adapter) -/

/-- One element of an OpenAI content-parts array (`{type, text}`). -/
structure ContentPart where
  type : String
  text : String
deriving DecidableEq, Repr

/-- OpenAI message content: a plain string or a parts array. -/
inductive MsgContent where
  | str (s : String)
  | parts (ps : List ContentPart)
deriving DecidableEq, Repr

/-- An OpenAI chat message. -/
structure OpenAIMessage where
  role : String
  content : MsgContent
deriving DecidableEq, Repr

/-- `Array.prototype.join(sep)`. -/
def joinSep (sep : String) : List String → String
  | [] => ""
  | [s] => s
  | s :: rest => s ++ sep ++ joinSep sep rest

/-- `extractText` (claude-code adapter): a string passes through; a parts
array keeps its `text`-typed parts joined by newlines. -/
def extractText (content : MsgContent) : String :=
  match content with
  | .str s => s
  | .parts ps => joinSep "\n" ((ps.filter (fun p => p.type = "text")).map (fun p => p.text))

/-- `formatConversationPrompt` from the PTY claude-code adapter: collect
system/developer texts for the side-channel system prompt; wrap non-empty
user/assistant texts in `<user>`/`<assistant>` blocks; with exactly one
user-role message and no assistant-role messages return its bare text,
otherwise the `<conversation>` transcript.  Returns
`(systemPrompt?, prompt)`. -/
def formatConversationPrompt (messages : List OpenAIMessage) : Option String × String :=
  let systemParts := messages.filterMap fun m =>
    let t := extractText m.content
    if t = "" then none
    else if m.role = "system" ∨ m.role = "developer" then some t
    else none
  let conversationParts := messages.filterMap fun m =>
    let t := extractText m.content
    if t = "" then none
    else if m.role = "user" then some ("<user>\n" ++ t ++ "\n</user>")
    else if m.role = "assistant" then some ("<assistant>\n" ++ t ++ "\n</assistant>")
    else none
  let userMessages := messages.filter (fun m => m.role = "user")
  let assistantMessages := messages.filter (fun m => m.role = "assistant")
  let sys := if systemParts = [] then none else some (joinSep "\n" systemParts)
  if userMessages.length = 1 ∧ assistantMessages.length = 0 then
    (sys, extractText ((userMessages.headD ⟨"user", MsgContent.str ""⟩).content))
  else
    (sys, "<conversation>\n" ++ joinSep "\n\n" conversationParts ++
      "\n</conversation>\n\nContinue this conversation. Respond to the last user message.")

/-- The claim's description of the transcript: one `<user>` or
`<assistant>` block per non-empty user/assistant message, in original
order, every other role contributing nothing. -/
def transcriptBlocks : List OpenAIMessage → List String
  | [] => []
  | m :: rest =>
      let t := extractText m.content
      let tail := transcriptBlocks rest
      if t ≠ "" ∧ m.role = "user" then ("<user>\n" ++ t ++ "\n</user>") :: tail
      else if t ≠ "" ∧ m.role = "assistant" then
        ("<assistant>\n" ++ t ++ "\n</assistant>") :: tail
      else tail

/-- The claim's description of the collected system prompt: the non-empty
texts of the system/developer messages, in order. -/
def systemTexts : List OpenAIMessage → List String
  | [] => []
  | m :: rest =>
      let t := extractText m.content
      let tail := systemTexts rest
      if t ≠ "" ∧ (m.role = "system" ∨ m.role = "developer") then t :: tail
      else tail

/-! ## Session resolver and store (`session-map.ts`)

The SQLite `sessions` table has `session_id` as primary key, so it is a
finite map from session id to row; `Date.now()` is an explicit `now`
parameter. -/

/-- One row of the `sessions` table (minus the key). -/
structure SessionEntry where
  backend_id : String
  created_at : Int
  last_used : Int
  msg_count : Int
deriving DecidableEq, Repr

/-- The `sessions` table as a map. -/
def SessionStore : Type := String → Option SessionEntry

/-- `SESSION_TTL_MS = 24 * 60 * 60 * 1000` (24 hours). -/
def SESSION_TTL_MS : Int := 24 * 60 * 60 * 1000

/-- `isNewConversation`: `stmtExists` selects a row with this id and
`last_used > now - TTL`; the function returns the negation of that row's
existence.  The request's message count plays no part. -/
def isNewConversation (store : SessionStore) (now : Int) (sessionId : String) : Bool :=
  match store sessionId with
  | none => true
  | some e => !(decide (e.last_used > now - SESSION_TTL_MS))

/-- `trackSession`: SQLite upsert.  Insert sets all columns; on conflict
only `last_used` and `msg_count` are updated (`created_at` and
`backend_id` are kept). -/
def trackSession (store : SessionStore) (now : Int) (sessionId backendId : String)
    (messageCount : Int) : SessionStore :=
  fun k =>
    if k = sessionId then
      some (match store sessionId with
        | some e => { e with last_used := now, msg_count := messageCount }
        | none => { backend_id := backendId, created_at := now, last_used := now
                    msg_count := messageCount })
    else store k

/-! ## SHA-256 and `resolveSessionId`

`createHash("sha256").update(seed).digest("hex")` is modelled by an
executable SHA-256 over the UTF-8 bytes of the seed. -/

/-- UTF-8 encoding of one character (code point), as byte values. -/
def utf8Bytes (c : Char) : List Nat :=
  let n := c.toNat
  if n < 0x80 then [n]
  else if n < 0x800 then [0xc0 + n / 64, 0x80 + n % 64]
  else if n < 0x10000 then [0xe0 + n / 4096, 0x80 + n / 64 % 64, 0x80 + n % 64]
  else [0xf0 + n / 262144, 0x80 + n / 4096 % 64, 0x80 + n / 64 % 64, 0x80 + n % 64]

/-- UTF-8 bytes of a string. -/
def strBytes (s : String) : List Nat :=
  s.toList.flatMap utf8Bytes

/-- Addition modulo 2³². -/
def add32 (a b : Nat) : Nat := (a + b) % 4294967296

/-- Right rotation of a 32-bit word. -/
def rotr32 (n x : Nat) : Nat :=
  (x >>> n ||| x <<< (32 - n)) % 4294967296

/-- Binary-search step for the integer cube root (largest `r` with
`r³ ≤ n`); the invariant is `lo³ ≤ n < hi³`. -/
def icbrtAux (n : Nat) : Nat → Nat → Nat → Nat
  | 0, lo, _ => lo
  | fuel + 1, lo, hi =>
      if hi ≤ lo + 1 then lo
      else
        let mid := (lo + hi) / 2
        if mid ^ 3 ≤ n then icbrtAux n fuel mid hi else icbrtAux n fuel lo mid

/-- Integer cube root. -/
def icbrt (n : Nat) : Nat := icbrtAux n 200 0 (n + 1)

/-- The first 64 primes, sources of the SHA-256 constants. -/
def primes64 : List Nat :=
  [2, 3, 5, 7, 11, 13, 17, 19, 23, 29, 31, 37, 41, 43, 47, 53, 59, 61, 67,
   71, 73, 79, 83, 89, 97, 101, 103, 107, 109, 113, 127, 131, 137, 139, 149,
   151, 157, 163, 167, 173, 179, 181, 191, 193, 197, 199, 211, 223, 227,
   229, 233, 239, 241, 251, 257, 263, 269, 271, 277, 281, 283, 293, 307, 311]

/-- SHA-256 round constants: the first 32 bits of the fractional parts of
the cube roots of the first 64 primes. -/
def sha256K : List Nat :=
  primes64.map fun p => icbrt (p * 2 ^ 96) % 4294967296

/-- SHA-256 initial hash state: the first 32 bits of the fractional parts
of the square roots of the first 8 primes. -/
def sha256H0 : List Nat :=
  (primes64.take 8).map fun p => Nat.sqrt (p * 2 ^ 64) % 4294967296

/-- Message padding: `0x80`, zeros to 56 mod 64, 8-byte big-endian bit
length. -/
def sha256Pad (msg : List Nat) : List Nat :=
  let len := msg.length
  let zeros := (64 - (len + 9) % 64) % 64
  let bitLen := len * 8
  msg ++ 0x80 :: List.replicate zeros 0 ++
    [bitLen / 2 ^ 56 % 256, bitLen / 2 ^ 48 % 256, bitLen / 2 ^ 40 % 256,
     bitLen / 2 ^ 32 % 256, bitLen / 2 ^ 24 % 256, bitLen / 2 ^ 16 % 256,
     bitLen / 2 ^ 8 % 256, bitLen % 256]

/-- Split the padded message into 64-byte blocks (`fuel` bounds the block
count; `length` suffices). -/
def toBlocks : Nat → List Nat → List (List Nat)
  | 0, _ => []
  | _, [] => []
  | fuel + 1, l => l.take 64 :: toBlocks fuel (l.drop 64)

/-- Big-endian 32-bit words of one block. -/
def toWords : List Nat → List Nat
  | b1 :: b2 :: b3 :: b4 :: rest =>
      (b1 * 2 ^ 24 + b2 * 2 ^ 16 + b3 * 2 ^ 8 + b4) :: toWords rest
  | _ => []

/-- Extend the 16-word schedule to 64 words. -/
def extendSchedule : Nat → List Nat → List Nat
  | 0, w => w
  | fuel + 1, w =>
      if 64 ≤ w.length then w
      else
        let i := w.length
        let w15 := w.getD (i - 15) 0
        let w2 := w.getD (i - 2) 0
        let s0 := (rotr32 7 w15 ^^^ rotr32 18 w15 ^^^ w15 >>> 3) % 4294967296
        let s1 := (rotr32 17 w2 ^^^ rotr32 19 w2 ^^^ w2 >>> 10) % 4294967296
        extendSchedule fuel
          (w ++ [add32 (add32 (w.getD (i - 16) 0) s0) (add32 (w.getD (i - 7) 0) s1)])

/-- One compression round. -/
def sha256Round (st : List Nat) (wk : Nat × Nat) : List Nat :=
  match st with
  | [a, b, c, d, e, f, g, h] =>
      let s1 := (rotr32 6 e ^^^ rotr32 11 e ^^^ rotr32 25 e) % 4294967296
      let ch := (e &&& f ^^^ (4294967295 - e) &&& g) % 4294967296
      let temp1 := add32 (add32 (add32 h s1) (add32 ch wk.2)) wk.1
      let s0 := (rotr32 2 a ^^^ rotr32 13 a ^^^ rotr32 22 a) % 4294967296
      let maj := (a &&& b ^^^ a &&& c ^^^ b &&& c) % 4294967296
      let temp2 := add32 s0 maj
      [add32 temp1 temp2, a, b, c, add32 d temp1, e, f, g]
  | _ => st

/-- Compress one block into the running hash state. -/
def sha256Block (h : List Nat) (block : List Nat) : List Nat :=
  let w := extendSchedule 48 (toWords block)
  let st := (w.zip sha256K).foldl sha256Round h
  (h.zip st).map fun p => add32 p.1 p.2

/-- Big-endian bytes of one 32-bit word. -/
def wordBytes (w : Nat) : List Nat :=
  [w / 2 ^ 24 % 256, w / 2 ^ 16 % 256, w / 2 ^ 8 % 256, w % 256]

/-- Lower-case hex digit. -/
def hexChar (n : Nat) : Char :=
  if n < 10 then Char.ofNat (48 + n) else Char.ofNat (87 + n)

/-- Two hex digits of one byte. -/
def byteHex (b : Nat) : List Char :=
  [hexChar (b / 16), hexChar (b % 16)]

/-- Hex digest of the SHA-256 of a byte list
(`createHash("sha256").update(·).digest("hex")`). -/
def sha256Hex (msg : List Nat) : String :=
  let padded := sha256Pad msg
  let final := (toBlocks (padded.length) padded).foldl sha256Block sha256H0
  String.mk ((final.flatMap wordBytes).flatMap byteHex)

/-- `extractContentText` from `session-map.ts`: string content passes
through, a parts array keeps `text` parts joined by newlines, absent
content is the empty string. -/
def extractContentText (content : Option MsgContent) : String :=
  match content with
  | none => ""
  | some (.str s) => s
  | some (.parts ps) =>
      joinSep "\n" ((ps.filter (fun p => p.type = "text")).map (fun p => p.text))

/-- JavaScript `s.slice(a, b)` for `a ≤ b` within bounds. -/
def jsSlice (s : String) (a b : Nat) : String :=
  String.mk ((s.toList.drop a).take (b - a))

/-- The derived session id of `resolveSessionId`: hash of
`systemPrompt ?? "" ++ "::" ++ firstUserText`, first 32 hex digits,
re-grouped by dashes (the five `hash.slice` groups joined by `-`). -/
def derivedSessionId (systemPrompt : Option String) (firstUserContent : Option MsgContent) :
    String :=
  let seed := (systemPrompt.getD "") ++ "::" ++ extractContentText firstUserContent
  let hash := jsSlice (sha256Hex (strBytes seed)) 0 32
  joinSep "-" [jsSlice hash 0 8, jsSlice hash 8 12, jsSlice hash 12 16,
    jsSlice hash 16 20, jsSlice hash 20 32]

/-- `resolveSessionId` from `session-map.ts`: a truthy (non-empty) caller
id is returned verbatim; otherwise the content-derived id. -/
def resolveSessionId (headerSessionId : Option String) (systemPrompt : Option String)
    (firstUserContent : Option MsgContent) : String :=
  match headerSessionId with
  | some h => if h = "" then derivedSessionId systemPrompt firstUserContent else h
  | none => derivedSessionId systemPrompt firstUserContent

/-- Split a character list into consecutive groups of the given sizes. -/
def splitSizes : List Nat → List Char → List (List Char)
  | [], _ => []
  | n :: rest, cs => cs.take n :: splitSizes rest (cs.drop n)

/-- The claim's description of the derived id, written independently of
the implementation: the first 32 hex digits of the SHA-256 of
`system prompt ++ "::" ++ first user text`, regrouped with dashes into the
8-4-4-4-12 UUID shape. -/
def derivedSessionIdSpec (systemPrompt : Option String)
    (firstUserContent : Option MsgContent) : String :=
  let seed := (systemPrompt.getD "") ++ "::" ++ extractContentText firstUserContent
  let hex32 := (sha256Hex (strBytes seed)).toList.take 32
  joinSep "-" ((splitSizes [8, 4, 4, 4, 12] hex32).map String.mk)

/-! ## Response encoder (`openai-format.ts`, `server.ts`) -/

/-- `choices[0].delta` of one SSE event. -/
inductive Delta where
  | roleAssistant
  | content (s : String)
  | empty
deriving DecidableEq, Repr

/-- One OpenAI chat-completion SSE chunk object. -/
structure SSEEvent where
  id : String
  model : String
  created : Int
  delta : Delta
  finish_reason : Option String
  usage : Option UsageInfo
deriving DecidableEq, Repr

/-- One item written to the SSE response stream: a chunk event, an inline
error payload, or the literal terminator. -/
inductive SSEOut where
  | event (e : SSEEvent)
  | errorPayload (message : String)
  | sentinel
deriving DecidableEq, Repr

/-- `formatSSEDone()`: the literal terminator line. -/
def formatSSEDone : String := "data: [DONE]\n\n"

/-- `formatSSERoleChunk`: the initial role-announcement event. -/
def formatSSERoleChunk (id model : String) (created : Int) : SSEEvent :=
  { id, model, created, delta := .roleAssistant, finish_reason := none, usage := none }

/-- `formatSSEChunk`: delta is `{}` when a finish reason is given and
`{content}` otherwise; the usage field is present exactly when usage is
passed. -/
def formatSSEChunk (id model : String) (created : Int) (content : String)
    (finishReason : Option String) (usage : Option UsageInfo) : SSEEvent :=
  { id, model, created
    delta := if finishReason ≠ none then .empty else .content content
    finish_reason := finishReason
    usage }

/-- The SSE items the streaming loop of `handleChatCompletions` writes for
one canonical chunk: `content` chunks with non-empty text produce one
content event (`chunk.content` is also truthiness-tested, so empty text
produces nothing); `done` produces the finish event followed by the
terminator; `error` produces an inline error payload. -/
def streamChunkOut (id model : String) (created : Int) : ChatChunk → List SSEOut
  | .content c =>
      if c ≠ "" then [.event (formatSSEChunk id model created c none none)] else []
  | .done _ _ usage =>
      [.event (formatSSEChunk id model created "" (some "stop") usage), .sentinel]
  | .error e => [.errorPayload e]

/-- The full streaming output for a chunk sequence: the role event first,
then the per-chunk items in order. -/
def streamEvents (id model : String) (created : Int) (chunks : List ChatChunk) : List SSEOut :=
  .event (formatSSERoleChunk id model created) ::
    chunks.flatMap (streamChunkOut id model created)

/-- The non-streaming response object (`formatNonStreamingResponse`). -/
structure NonStreamingResponse where
  id : String
  model : String
  created : Int
  content : String
  finish_reason : String
  usage : UsageInfo
deriving DecidableEq, Repr

/-- `formatNonStreamingResponse`: the assembled single response, finish
reason always `"stop"`. -/
def formatNonStreamingResponse (id model : String) (created : Int) (content : String)
    (usage : UsageInfo) : NonStreamingResponse :=
  { id, model, created, content, finish_reason := "stop", usage }

/-- The non-streaming accumulation loop of `handleChatCompletions`:
non-empty content is appended, `done` replaces the usage when it carries
one, an `error` chunk aborts with an error response. -/
def nonStreamingFold : String × UsageInfo → List ChatChunk → Except String (String × UsageInfo)
  | acc, [] => .ok acc
  | (fc, fu), ChatChunk.content c :: t =>
      nonStreamingFold (if c ≠ "" then (fc ++ c, fu) else (fc, fu)) t
  | (fc, fu), ChatChunk.done _ _ usage :: t =>
      nonStreamingFold (fc, usage.getD fu) t
  | _, ChatChunk.error e :: _ => .error e

/-- The whole non-streaming handler on a chunk sequence. -/
def handleNonStreaming (id model : String) (created : Int) (chunks : List ChatChunk) :
    Except String NonStreamingResponse :=
  (nonStreamingFold ("", ⟨0, 0, 0⟩) chunks).map fun acc =>
    formatNonStreamingResponse id model created acc.1 acc.2

/-! ## Environment allow-listing (`cleanEnv`) -/

/-- `ALLOWED_KEYS`: environment variables safe for every CLI subprocess. -/
def ALLOWED_KEYS : List String :=
  ["PATH", "HOME", "USER", "LOGNAME", "SHELL", "TERM", "LANG", "LC_ALL",
   "LC_CTYPE", "TMPDIR", "TMP", "TEMP", "XDG_CONFIG_HOME", "XDG_DATA_HOME",
   "XDG_CACHE_HOME", "XDG_RUNTIME_DIR", "NODE_PATH", "NODE_ENV",
   "NODE_OPTIONS", "NODE_EXTRA_CA_CERTS", "NPM_CONFIG_PREFIX", "DISPLAY",
   "COLORTERM", "TERM_PROGRAM", "HOSTNAME", "SSH_AUTH_SOCK"]

/-- `BACKEND_KEYS[backendId] ?? []`: per-backend auth variables. -/
def BACKEND_KEYS (backendId : String) : List String :=
  if backendId = "claude-code" then
    ["ANTHROPIC_API_KEY", "CLAUDE_CODE_USE_BEDROCK", "CLAUDE_CODE_USE_VERTEX"]
  else if backendId = "codex" then
    ["CODEX_API_KEY", "OPENAI_API_KEY", "OPENAI_ORG_ID"]
  else if backendId = "gemini" then
    ["GEMINI_API_KEY", "GOOGLE_API_KEY", "GOOGLE_APPLICATION_CREDENTIALS",
     "GOOGLE_CLOUD_PROJECT"]
  else []

/-- `cleanEnv`: keep exactly the entries of `process.env` (modelled as an
association list with string values, as `Object.entries` yields) whose key
is allow-listed globally or for this backend, each with its unchanged
value. -/
def cleanEnv (backendId : String) (env : List (String × String)) : List (String × String) :=
  env.filter fun kv =>
    ALLOWED_KEYS.contains kv.1 || (BACKEND_KEYS backendId).contains kv.1

end CliGateway

namespace CliGateway

/-! ## Line-splitting and line-buffering lemmas -/

theorem splitLines_nl (rest : List Char) : splitLines ('\n' :: rest) = [] :: splitLines rest := by
  simp [splitLines]

theorem splitLines_ne_nil : ∀ cs : List Char, splitLines cs ≠ []
  | [] => by simp [splitLines]
  | c :: rest => by
      by_cases h : c = '\n'
      · simp [splitLines, h]
      · simp only [splitLines, if_neg h]
        cases hs : splitLines rest <;> simp

theorem splitLines_cons_of_ne (c : Char) (rest h' : List Char) (t' : List (List Char))
    (hne : c ≠ '\n') (hrest : splitLines rest = h' :: t') :
    splitLines (c :: rest) = (c :: h') :: t' := by
  simp [splitLines, hne, hrest]

theorem joinHead_ne_nil (l : List Char) (ls : List (List Char)) : joinHead l ls ≠ [] := by
  cases ls <;> simp [joinHead]

/-- Splitting a concatenation: the left part's last segment fuses with the
right part's first segment. -/
theorem splitLines_append (a b : List Char) :
    splitLines (a ++ b) =
      (splitLines a).dropLast ++ joinHead ((splitLines a).getLastD []) (splitLines b) := by
  induction a with
  | nil =>
      cases hb : splitLines b with
      | nil => exact absurd hb (splitLines_ne_nil b)
      | cons h t => simp [splitLines, joinHead, hb]
  | cons c rest ih =>
      by_cases h : c = '\n'
      · subst h
        rw [List.cons_append, splitLines_nl, splitLines_nl, ih]
        cases hs : splitLines rest with
        | nil => exact absurd hs (splitLines_ne_nil rest)
        | cons h' t' => simp [List.getLastD_cons]
      · cases hs : splitLines rest with
        | nil => exact absurd hs (splitLines_ne_nil rest)
        | cons h' t' =>
            cases hsab : splitLines (rest ++ b) with
            | nil => exact absurd hsab (splitLines_ne_nil _)
            | cons h1 t1 =>
                rw [List.cons_append, splitLines_cons_of_ne c _ _ _ h hsab,
                    splitLines_cons_of_ne c _ _ _ h hs]
                rw [ih, hs] at hsab
                cases t' with
                | nil =>
                    cases hb : splitLines b with
                    | nil => exact absurd hb (splitLines_ne_nil b)
                    | cons hb1 tb1 =>
                        rw [hb] at hsab
                        simp [joinHead, hb, List.getLastD_cons] at hsab ⊢
                        exact ⟨hsab.1.symm, hsab.2.symm⟩
                | cons h2 t2 =>
                    simp only [List.dropLast_cons₂, List.getLastD_cons] at hsab ⊢
                    injection hsab with e1 e2
                    subst e1; subst e2
                    simp

theorem splitLines_singleton_of_no_nl : ∀ l : List Char, '\n' ∉ l → splitLines l = [l]
  | [], _ => by simp [splitLines]
  | c :: l', h => by
      have hc : c ≠ '\n' := fun e => h (e ▸ List.mem_cons_self c l')
      have hl : '\n' ∉ l' := fun m => h (List.mem_cons_of_mem c m)
      rw [splitLines_cons_of_ne c l' l' [] hc (splitLines_singleton_of_no_nl l' hl)]

/-- The trailing partial segment never contains a newline. -/
theorem no_nl_getLastD : ∀ cs : List Char, '\n' ∉ (splitLines cs).getLastD []
  | [] => by simp [splitLines]
  | c :: rest => by
      by_cases h : c = '\n'
      · subst h
        rw [splitLines_nl]
        cases hs : splitLines rest with
        | nil => exact absurd hs (splitLines_ne_nil rest)
        | cons h' t' =>
            have := no_nl_getLastD rest
            rw [hs] at this
            simpa [List.getLastD_cons] using this
      · cases hs : splitLines rest with
        | nil => exact absurd hs (splitLines_ne_nil rest)
        | cons h' t' =>
            rw [splitLines_cons_of_ne c rest h' t' h hs]
            have ihd := no_nl_getLastD rest
            rw [hs] at ihd
            cases t' with
            | nil =>
                simp only [List.getLastD_cons, List.getLastD_nil] at ihd ⊢
                intro m
                rcases List.mem_cons.mp m with e | m2
                · exact h e.symm
                · exact ihd m2
            | cons h2 t2 =>
                simpa [List.getLastD_cons] using ihd

theorem applyLine_lineBuf (sid : String) (st : CodexSpawnState) (l : List Char) :
    (applyLine sid st l).lineBuf = st.lineBuf := by
  unfold applyLine
  by_cases h : jsTrim (String.mk l) = "" <;> simp [h]

theorem applyLine_setBuf (sid : String) (st : CodexSpawnState) (b : List Char) (l : List Char) :
    applyLine sid { st with lineBuf := b } l = { applyLine sid st l with lineBuf := b } := by
  unfold applyLine
  by_cases h : jsTrim (String.mk l) = "" <;> simp [h]

theorem foldl_applyLine_setBuf (sid : String) :
    ∀ (lines : List (List Char)) (st : CodexSpawnState) (b : List Char),
      lines.foldl (applyLine sid) { st with lineBuf := b } =
        { lines.foldl (applyLine sid) st with lineBuf := b }
  | [], _, _ => rfl
  | l :: rest, st, b => by
      simp only [List.foldl_cons, applyLine_setBuf]
      exact foldl_applyLine_setBuf sid rest (applyLine sid st l) b

theorem applyLine_queue (sid : String) (st : CodexSpawnState) (l : List Char) :
    (applyLine sid st l).queue = st.queue ++ lineChunksOf sid l := by
  unfold applyLine lineChunksOf
  by_cases h : jsTrim (String.mk l) = "" <;> simp [h]

theorem foldl_applyLine_queue (sid : String) :
    ∀ (lines : List (List Char)) (st : CodexSpawnState),
      (lines.foldl (applyLine sid) st).queue =
        st.queue ++ lines.flatMap (lineChunksOf sid)
  | [], _ => by simp
  | l :: rest, st => by
      simp only [List.foldl_cons, List.flatMap_cons]
      rw [foldl_applyLine_queue sid rest (applyLine sid st l), applyLine_queue]
      simp

theorem foldl_applyLine_lineBuf (sid : String) :
    ∀ (lines : List (List Char)) (st : CodexSpawnState),
      (lines.foldl (applyLine sid) st).lineBuf = st.lineBuf
  | [], _ => rfl
  | l :: rest, st => by
      rw [List.foldl_cons, foldl_applyLine_lineBuf sid rest (applyLine sid st l),
        applyLine_lineBuf]

theorem toList_append (s t : String) : (s ++ t).toList = s.toList ++ t.toList := by
  simp [String.toList]

theorem getLastD_append_right {α : Type} (u v : List α) (h : v ≠ []) (d : α) :
    (u ++ v).getLastD d = v.getLastD d := by
  simp only [List.getLastD_eq_getLast?, List.getLast?_append]
  cases hv : v.getLast? with
  | none => exact absurd (List.getLast?_eq_none_iff.mp hv) h
  | some a => rfl

/-- Chunked delivery is transparent: two consecutive data events act as
their concatenation. -/
theorem codexOnData_append (sid : String) (st : CodexSpawnState) (d1 d2 : String) :
    codexOnData sid (codexOnData sid st d1) d2 = codexOnData sid st (d1 ++ d2) := by
  have hnl : '\n' ∉ (splitLines (st.lineBuf ++ d1.toList)).getLastD [] :=
    no_nl_getLastD _
  have hA2 : splitLines ((splitLines (st.lineBuf ++ d1.toList)).getLastD [] ++ d2.toList) =
      joinHead ((splitLines (st.lineBuf ++ d1.toList)).getLastD []) (splitLines d2.toList) := by
    rw [splitLines_append, splitLines_singleton_of_no_nl _ hnl]
    simp [List.getLastD]
  have hA : splitLines (st.lineBuf ++ (d1 ++ d2).toList) =
      (splitLines (st.lineBuf ++ d1.toList)).dropLast ++
        splitLines ((splitLines (st.lineBuf ++ d1.toList)).getLastD [] ++ d2.toList) := by
    rw [toList_append, ← List.append_assoc, splitLines_append, hA2]
  unfold codexOnData
  simp only [foldl_applyLine_lineBuf, foldl_applyLine_setBuf]
  rw [hA, getLastD_append_right _ _ (splitLines_ne_nil _),
    List.dropLast_append_of_ne_nil _ (splitLines_ne_nil _), List.foldl_append]

theorem foldl_codexOnData (sid : String) :
    ∀ (datas : List String) (d : String) (st : CodexSpawnState),
      (d :: datas).foldl (codexOnData sid) st = codexOnData sid st (d ++ concatAll datas)
  | [], d, st => by simp [concatAll]
  | d2 :: rest, d, st => by
      rw [List.foldl_cons, foldl_codexOnData sid rest d2 (codexOnData sid st d),
        codexOnData_append, concatAll, ← String.append_assoc]

theorem codexOnClose_queue (sid : String) (st : CodexSpawnState) (code : Option Int) :
    (codexOnClose sid st code).queue =
      st.queue ++ lineChunksOf sid st.lineBuf ++
        (if code = some 0 then [] else [ChatChunk.error (exitErrorMsg code)]) := by
  unfold codexOnClose lineChunksOf
  by_cases h : jsTrim (String.mk st.lineBuf) = ""
  · by_cases hc : code = some 0 <;> simp [h, hc]
  · by_cases hc : code = some 0 <;> simp [h, hc, applyLine_queue, lineChunksOf]

theorem codexOnData_queue (sid : String) (st : CodexSpawnState) (data : String) :
    (codexOnData sid st data).queue =
      st.queue ++ (splitLines (st.lineBuf ++ data.toList)).dropLast.flatMap (lineChunksOf sid) := by
  unfold codexOnData
  simp only [foldl_applyLine_setBuf]
  simp [foldl_applyLine_queue]

theorem codexOnData_lineBuf (sid : String) (st : CodexSpawnState) (data : String) :
    (codexOnData sid st data).lineBuf = (splitLines (st.lineBuf ++ data.toList)).getLastD [] := by
  unfold codexOnData
  simp only [foldl_applyLine_setBuf]

theorem dropLast_append_getLastD {α : Type} (l : List α) (h : l ≠ []) (d : α) :
    l.dropLast ++ [l.getLastD d] = l := by
  cases hl : l.getLast? with
  | none => exact absurd (List.getLast?_eq_none_iff.mp hl) h
  | some a => rw [List.getLastD_eq_getLast?, hl]; exact List.dropLast_append_getLast? a hl

/-- Characterisation of one codex subprocess run: however the stdout
stream is sliced into data events, the delivered chunks are exactly the
per-line chunks of the whole stream, in order, followed by the synthetic
exit-error chunk exactly when the exit code is not `0`. -/
theorem spawnCodexChunks_eq (sid : String) (datas : List String) (code : Option Int) :
    spawnCodexChunks sid datas code =
      (splitLines (concatAll datas).toList).flatMap (lineChunksOf sid) ++
        (if code = some 0 then [] else [ChatChunk.error (exitErrorMsg code)]) := by
  unfold spawnCodexChunks
  cases datas with
  | nil =>
      rw [codexOnClose_queue]
      simp [initCodexState, concatAll, splitLines, lineChunksOf, jsTrim]
  | cons d rest =>
      rw [foldl_codexOnData, codexOnClose_queue, codexOnData_queue, codexOnData_lineBuf]
      show ([] ++ _ ++ _ ++ _) = _
      rw [List.nil_append]
      conv_rhs =>
        rw [show concatAll (d :: rest) = d ++ concatAll rest from rfl,
          ← dropLast_append_getLastD (splitLines (d ++ concatAll rest).toList)
            (splitLines_ne_nil _) [],
          List.flatMap_append]
      simp [initCodexState]

/-- C2: whenever the current attempt of the codex retry decorator yields an
`error` chunk before any content was delivered, with fewer than 3 total
attempts made and no cancellation, the decorator emits nothing for the
error, kills the current subprocess, waits a backoff delay linear in the
attempt count (`1000 * attempt` ms after incrementing), and transparently
starts the next attempt; in particular, when attempts 0 and 1 each error
before any content and attempt 2 emits `content` then `done`, the consumer
observes exactly one `content` chunk followed by one `done` chunk and zero
`error` chunks. -/
theorem retry_transparency :
    (∀ (attempt : Nat) (gotContent : Bool) (e : String) (t : List ChatChunk),
        gotContent = false → attempt < MAX_RETRIES →
        consumeAttempt attempt gotContent (ChatChunk.error e :: t) =
          ([], AttemptOutcome.retryNeeded)) ∧
    (∀ (attempts : Nat → List ChatChunk) (attempt fuel : Nat) (e : String)
        (t : List ChatChunk),
        attempt < MAX_RETRIES → attempts attempt = ChatChunk.error e :: t →
        retryLoop attempts attempt (fuel + 1) =
          RetryEvent.killChild :: RetryEvent.wait (1000 * (attempt + 1)) ::
            RetryEvent.respawn (attempt + 1) :: retryLoop attempts (attempt + 1) fuel) ∧
    retryVisible failTwiceAdapter =
      [ChatChunk.content "hi", ChatChunk.done "stop" none none] := by
  refine ⟨?_, ?_, by decide⟩
  · intro attempt gotContent e t hg ha
    subst hg
    simp [consumeAttempt, ha]
  · intro attempts attempt fuel e t ha he
    have hc : consumeAttempt attempt false (attempts attempt) =
        ([], AttemptOutcome.retryNeeded) := by
      rw [he]; simp [consumeAttempt, ha]
    rw [retryLoop, hc]
    simp

/-- Witness for `retry_transparency` at concrete inputs: an always-failing
adapter at attempt 0 with 2 retries remaining triggers kill, a 1000 ms
backoff and a respawn of attempt 1. -/
theorem retry_transparency_witness :
    consumeAttempt 0 false [ChatChunk.error "x"] = ([], AttemptOutcome.retryNeeded) ∧
    retryLoop (fun _ => [ChatChunk.error "x"]) 0 1 =
      RetryEvent.killChild :: RetryEvent.wait 1000 :: RetryEvent.respawn 1 ::
        retryLoop (fun _ => [ChatChunk.error "x"]) 1 0 :=
  ⟨retry_transparency.1 0 false "x" [] rfl (by decide),
   retry_transparency.2.1 (fun _ => [ChatChunk.error "x"]) 0 0 "x" [] (by decide) rfl⟩

/-- C3: once a `content` chunk has been delivered (`gotContent = true`),
every subsequent `error` chunk is passed straight through to the consumer
and consumption continues in the same attempt — no retry is started,
whatever the attempt number; when at least one retry has occurred
(`attempt > 0`), the surfaced message is annotated with the total attempt
count.  Concretely, an adapter emitting `content` then `error` yields the
consumer trace `content`, `error` with no kill/wait/respawn events. -/
theorem retry_suppression :
    (∀ (attempt : Nat) (e : String) (t : List ChatChunk),
        consumeAttempt attempt true (ChatChunk.error e :: t) =
          (RetryEvent.chunk (ChatChunk.error (annotateError attempt e)) ::
             (consumeAttempt attempt true t).1,
           (consumeAttempt attempt true t).2)) ∧
    (∀ (attempt : Nat) (e : String), 0 < attempt →
        annotateError attempt e =
          e ++ " (after " ++ toString (attempt + 1) ++ " attempts)") ∧
    retryTrace contentThenErrorAdapter =
      [RetryEvent.respawn 0, RetryEvent.chunk (ChatChunk.content "hi"),
       RetryEvent.chunk (ChatChunk.error "boom")] := by
  refine ⟨?_, ?_, by decide⟩
  · intro attempt e t
    simp [consumeAttempt]
  · intro attempt e h
    simp [annotateError, h]

/-- Witness for `retry_suppression` at concrete inputs: after content, an
error in attempt 1 (out of 3) surfaces immediately, annotated with the
total attempt count. -/
theorem retry_suppression_witness :
    consumeAttempt 1 true [ChatChunk.error "b"] =
      (RetryEvent.chunk (ChatChunk.error (annotateError 1 "b")) ::
         (consumeAttempt 1 true []).1,
       (consumeAttempt 1 true []).2) ∧
    annotateError 1 "b" = "b" ++ " (after " ++ toString 2 ++ " attempts)" :=
  ⟨retry_suppression.1 1 "b" [], retry_suppression.2.1 1 "b" (by decide)⟩

/-- C1 counterexample: a codex run whose only stdout line is a
`turn.failed` event (enqueuing a terminal `error` chunk) and whose process
then exits with code 1 delivers a second, synthetic error chunk after the
terminal chunk — the redundant exit is not ignored, and the sequence is
not zero-or-more `content` chunks followed by exactly one terminal
chunk. -/
theorem codex_exit_error_counterexample :
    spawnCodexChunks "sid"
        ["\x7b\"type\":\"turn.failed\",\"error\":\"boom\"\x7d\n"] (some 1) =
      [ChatChunk.error "boom", ChatChunk.error "CLI exited with code 1"] ∧
    (ChatChunk.error "boom").isTerminal = true ∧
    wellFormedSeq [ChatChunk.error "boom", ChatChunk.error "CLI exited with code 1"] = false :=
  ⟨by decide, rfl, by decide⟩

/-- C1 (amended): for every codex run — any slicing of stdout into data
events, any exit code — the delivered chunk sequence is exactly the chunks
produced by protocol parsing of the stdout lines, in order, followed by
one synthetic error chunk citing the exit code exactly when the exit code
is non-zero or null; the synthetic chunk is appended even when protocol
parsing already enqueued a terminal chunk.  When the parsed chunks are
zero or more `content` chunks followed by exactly one terminal chunk and
the exit code is 0, the delivered sequence is exactly those chunks with
nothing after the terminal. -/
theorem codex_sequence_shape :
    (∀ (sid : String) (datas : List String) (code : Option Int),
        spawnCodexChunks sid datas code =
          (splitLines (concatAll datas).toList).flatMap (lineChunksOf sid) ++
            (if code = some 0 then [] else [ChatChunk.error (exitErrorMsg code)])) ∧
    (∀ (sid : String) (datas : List String),
        wellFormedSeq ((splitLines (concatAll datas).toList).flatMap (lineChunksOf sid)) = true →
        wellFormedSeq (spawnCodexChunks sid datas (some 0)) = true) := by
  refine ⟨spawnCodexChunks_eq, fun sid datas h => ?_⟩
  rw [spawnCodexChunks_eq]
  simpa using h

/-- Witness for `codex_sequence_shape` at a concrete run: one
`turn.completed` line with a zero exit delivers a well-formed sequence. -/
theorem codex_sequence_shape_witness :
    wellFormedSeq (spawnCodexChunks "sid"
      ["\x7b\"type\":\"turn.completed\"\x7d\n"] (some 0)) = true :=
  codex_sequence_shape.2 "sid" ["\x7b\"type\":\"turn.completed\"\x7d\n"] (by decide)

/-- C4: cancellation behaviour at the failing input.  Codex adapter: with
an abort fired mid-stream and the signal-terminated process closing with a
`null` exit code, the close handler — which has no `killed` guard —
enqueues a synthetic error chunk (`"CLI exited with code null"`) on the
cancellation path; a consumer whose read was pending when the abort fired
receives it, because the outer iterator returns any chunk its inner read
resolves with and only suppresses retries when `killed`.  The PTY
claude-code adapter in the same scenario honours the contract: the kill is
requested, the bridge finishes, and no synthetic error or terminal chunk
follows the already-delivered content chunk. -/
theorem cancellation_scenarios :
    (codexRun "sid"
        [CodexEvent.data
          "\x7b\"type\":\"item.completed\",\"item\":\x7b\"type\":\"agent_message\",\"text\":\"Hello\"\x7d\x7d\n",
         CodexEvent.abortSignal, CodexEvent.close none]).spawn.queue =
      [ChatChunk.content "Hello", ChatChunk.error "CLI exited with code null"] ∧
    (codexRun "sid"
        [CodexEvent.data
          "\x7b\"type\":\"item.completed\",\"item\":\x7b\"type\":\"agent_message\",\"text\":\"Hello\"\x7d\x7d\n",
         CodexEvent.abortSignal, CodexEvent.close none]).killed = true ∧
    (codexRun "sid"
        [CodexEvent.data
          "\x7b\"type\":\"item.completed\",\"item\":\x7b\"type\":\"agent_message\",\"text\":\"Hello\"\x7d\x7d\n",
         CodexEvent.abortSignal, CodexEvent.close none]).sigterms = 1 ∧
    ptyRun
        [PtyEvent.data
          "\x7b\"type\":\"assistant\",\"message\":\x7b\"content\":[\x7b\"type\":\"text\",\"text\":\"Hi\"\x7d]\x7d\x7d\n",
         PtyEvent.abortSignal, PtyEvent.exit 1] =
      { lineBuf := [], queue := [ChatChunk.content "Hi"], killed := true,
        finished := true, killCalls := 1 } :=
  ⟨by decide, by decide, by decide, by decide⟩

/-- C5: a subprocess output line that fails to parse as JSON contributes
nothing — the codex `processLine` returns no chunks and no mapping update
and the claude PTY line handler returns no chunks (both are total
functions, so nothing is thrown past the bridge); the concrete malformed
line fails to parse; and a codex run with that line interleaved between
two valid agent-message lines still delivers both `content` chunks in
order. -/
theorem malformed_lines_discarded :
    (∀ (sid line : String), jsonParse line = none → processLine sid line = ([], none)) ∧
    (∀ line : String, jsonParse line = none → claudeProcessLine line = []) ∧
    jsonParse "\x7bnot json" = none ∧
    spawnCodexChunks "sid"
        ["\x7b\"type\":\"item.completed\",\"item\":\x7b\"type\":\"agent_message\",\"text\":\"Hello\"\x7d\x7d\n\x7bnot json\n\x7b\"type\":\"item.completed\",\"item\":\x7b\"type\":\"agent_message\",\"text\":\"World\"\x7d\x7d\n"]
        (some 0) =
      [ChatChunk.content "Hello", ChatChunk.content "World"] := by
  refine ⟨fun sid line h => ?_, fun line h => ?_, by rfl, by decide⟩
  · simp [processLine, h]
  · simp [claudeProcessLine, h]

/-- Witness for `malformed_lines_discarded` at the concrete malformed
line. -/
theorem malformed_lines_discarded_witness :
    processLine "sid" "\x7bnot json" = ([], none) ∧
    claudeProcessLine "\x7bnot json" = [] :=
  ⟨malformed_lines_discarded.1 "sid" "\x7bnot json" (by rfl),
   malformed_lines_discarded.2.1 "\x7bnot json" (by rfl)⟩

end CliGateway

namespace CliGateway

/-- C6: `isNewConversation` is true iff no stored entry exists for the id
or the stored entry's last-used time is at least the 24-hour TTL before
`now`; it takes no message count and the stored message count does not
influence it; it is true for any id with no entry (in particular any id
never tracked) and false at any time less than one TTL after
`trackSession` for that id. -/
theorem isNewConversation_spec :
    (∀ (store : SessionStore) (now : Int) (sid : String),
        isNewConversation store now sid = true ↔
          store sid = none ∨
            ∃ e, store sid = some e ∧ e.last_used ≤ now - SESSION_TTL_MS) ∧
    (∀ (store : SessionStore) (now now' : Int) (sid bid : String) (mc : Int),
        now' - now < SESSION_TTL_MS →
        isNewConversation (trackSession store now sid bid mc) now' sid = false) ∧
    (∀ (store : SessionStore) (now : Int) (sid : String) (e : SessionEntry) (mc : Int),
        store sid = some e →
        isNewConversation
          (fun k => if k = sid then some { e with msg_count := mc } else store k) now sid =
          isNewConversation store now sid) ∧
    (∀ (now : Int) (sid : String), isNewConversation (fun _ => none) now sid = true) := by
  refine ⟨fun store now sid => ?_, fun store now now' sid bid mc h => ?_,
    fun store now sid e mc h => ?_, fun now sid => rfl⟩
  · cases h : store sid with
    | none => simp [isNewConversation, h]
    | some e =>
        simp [isNewConversation, h]
  · simp only [isNewConversation, trackSession, if_pos rfl]
    cases h2 : store sid <;> simp <;> omega
  · simp [isNewConversation, h]

/-- Witness for `isNewConversation_spec`: immediately-tracked id, queried
1 second later, is not a new conversation. -/
theorem isNewConversation_witness :
    isNewConversation (trackSession (fun _ => none) 0 "s" "b" 3) 1000 "s" = false :=
  isNewConversation_spec.2.1 (fun _ => none) 0 1000 "s" "b" 3 (by decide)

/-- The code's slice-based regrouping of the truncated digest equals the
claim's 8-4-4-4-12 grouping. -/
theorem derivedSessionId_eq_spec (sp : Option String) (fu : Option MsgContent) :
    derivedSessionId sp fu = derivedSessionIdSpec sp fu := by
  unfold derivedSessionId derivedSessionIdSpec jsSlice
  simp [String.toList, List.drop_drop, splitSizes]

/-- C7: `resolveSessionId` returns a non-empty explicit id verbatim
whatever the other two arguments are; with no explicit id it returns the
first 32 hex digits of the SHA-256 of `systemPrompt ?? "" ++ "::" ++
first-user text`, regrouped with dashes into the 8-4-4-4-12 UUID shape;
and it is a pure function — equal inputs give the identical id. -/
theorem resolveSessionId_spec :
    (∀ (h : String) (sp : Option String) (fu : Option MsgContent),
        h ≠ "" → resolveSessionId (some h) sp fu = h) ∧
    (∀ (sp : Option String) (fu : Option MsgContent),
        resolveSessionId none sp fu = derivedSessionIdSpec sp fu) ∧
    (∀ (a a' : Option String) (b b' : Option String) (c c' : Option MsgContent),
        a = a' → b = b' → c = c' →
        resolveSessionId a b c = resolveSessionId a' b' c') := by
  refine ⟨fun h sp fu hne => ?_, fun sp fu => derivedSessionId_eq_spec sp fu,
    fun a a' b b' c c' e1 e2 e3 => by rw [e1, e2, e3]⟩
  simp [resolveSessionId, hne]

/-- Witness for `resolveSessionId_spec`: an explicit id short-circuits. -/
theorem resolveSessionId_witness :
    resolveSessionId (some "abc") (some "sys") (some (MsgContent.str "other")) = "abc" :=
  resolveSessionId_spec.1 "abc" (some "sys") (some (MsgContent.str "other")) (by decide)

theorem filterMap_conv_eq : ∀ msgs : List OpenAIMessage,
    msgs.filterMap (fun m =>
      if extractText m.content = "" then none
      else if m.role = "user" then
        some ("<user>\n" ++ extractText m.content ++ "\n</user>")
      else if m.role = "assistant" then
        some ("<assistant>\n" ++ extractText m.content ++ "\n</assistant>")
      else none) = transcriptBlocks msgs
  | [] => rfl
  | m :: rest => by
      simp only [List.filterMap_cons, transcriptBlocks]
      by_cases h1 : extractText m.content = ""
      · simp [h1, filterMap_conv_eq rest]
      · by_cases h2 : m.role = "user"
        · simp [h1, h2, filterMap_conv_eq rest]
        · by_cases h3 : m.role = "assistant" <;>
            simp [h1, h2, h3, filterMap_conv_eq rest]

theorem filterMap_sys_eq : ∀ msgs : List OpenAIMessage,
    msgs.filterMap (fun m =>
      if extractText m.content = "" then none
      else if m.role = "system" ∨ m.role = "developer" then some (extractText m.content)
      else none) = systemTexts msgs
  | [] => rfl
  | m :: rest => by
      simp only [List.filterMap_cons, systemTexts]
      by_cases h1 : extractText m.content = ""
      · simp [h1, filterMap_sys_eq rest]
      · by_cases h2 : m.role = "system" ∨ m.role = "developer" <;>
          simp [h1, h2, filterMap_sys_eq rest]

/-- C8: `formatConversationPrompt` returns the bare text of the sole
user-role message when the list holds exactly one user-role and no
assistant-role message; otherwise the `<conversation>` transcript with one
`<user>`/`<assistant>` block per non-empty user/assistant message in
original order; system and developer texts are collected (joined by
newlines) into the separate system prompt; and a message of any other role
(e.g. tool) leaves the result unchanged. -/
theorem formatConversationPrompt_spec :
    (∀ (msgs : List OpenAIMessage) (u : OpenAIMessage),
        msgs.filter (fun m => m.role = "user") = [u] →
        msgs.filter (fun m => m.role = "assistant") = [] →
        (formatConversationPrompt msgs).2 = extractText u.content) ∧
    (∀ msgs : List OpenAIMessage,
        ¬((msgs.filter (fun m => m.role = "user")).length = 1 ∧
          (msgs.filter (fun m => m.role = "assistant")).length = 0) →
        (formatConversationPrompt msgs).2 =
          "<conversation>\n" ++ joinSep "\n\n" (transcriptBlocks msgs) ++
            "\n</conversation>\n\nContinue this conversation. Respond to the last user message.") ∧
    (∀ msgs : List OpenAIMessage,
        (formatConversationPrompt msgs).1 =
          if systemTexts msgs = [] then none else some (joinSep "\n" (systemTexts msgs))) ∧
    (∀ (ms1 ms2 : List OpenAIMessage) (m : OpenAIMessage),
        m.role ≠ "system" → m.role ≠ "developer" → m.role ≠ "user" → m.role ≠ "assistant" →
        formatConversationPrompt (ms1 ++ m :: ms2) = formatConversationPrompt (ms1 ++ ms2)) := by
  refine ⟨fun msgs u h1 h2 => ?_, fun msgs h => ?_, fun msgs => ?_,
    fun ms1 ms2 m r1 r2 r3 r4 => ?_⟩
  · simp [formatConversationPrompt, h1, h2]
  · unfold formatConversationPrompt
    dsimp only
    rw [if_neg h]
    dsimp only
    rw [filterMap_conv_eq]
  · unfold formatConversationPrompt
    dsimp only
    rw [filterMap_sys_eq]
    split <;> rfl
  · unfold formatConversationPrompt
    dsimp only
    rw [List.filter_append, List.filter_append, List.filter_cons, List.filter_cons,
      List.filterMap_append, List.filterMap_append, List.filterMap_cons, List.filterMap_cons]
    by_cases h1 : extractText m.content = "" <;> simp [h1, r1, r2, r3, r4]

/-- Witness for `formatConversationPrompt_spec` on a single user
message. -/
theorem formatConversationPrompt_witness :
    (formatConversationPrompt [⟨"user", MsgContent.str "hi"⟩]).2 =
      extractText (MsgContent.str "hi") :=
  formatConversationPrompt_spec.1 [⟨"user", MsgContent.str "hi"⟩]
    ⟨"user", MsgContent.str "hi"⟩ (by decide) (by decide)

theorem stream_content_flatMap (id model : String) (created : Int) :
    ∀ texts : List String,
      (texts.map ChatChunk.content).flatMap (streamChunkOut id model created) =
        (texts.filter (fun t => t ≠ "")).map
          (fun t => SSEOut.event (formatSSEChunk id model created t none none))
  | [] => rfl
  | t :: rest => by
      by_cases h : t = "" <;>
        simp [streamChunkOut, h, stream_content_flatMap id model created rest]

theorem nonStreamingFold_content :
    ∀ (texts : List String) (fc : String) (fu : UsageInfo) (rest : List ChatChunk),
      nonStreamingFold (fc, fu) (texts.map ChatChunk.content ++ rest) =
        nonStreamingFold (fc ++ concatAll texts, fu) rest
  | [], fc, fu, rest => by simp [concatAll]
  | t :: ts, fc, fu, rest => by
      by_cases h : t = ""
      · subst h
        simp [nonStreamingFold, concatAll, nonStreamingFold_content ts]
      · simp [nonStreamingFold, concatAll, h, nonStreamingFold_content ts,
          String.append_assoc]

/-- C9 counterexample: a canonical `content` chunk with empty text
produces no SSE event at all (the loop also tests `chunk.content` for
truthiness), so it does not appear as `delta.content` in exactly one
event; and a `done` chunk without usage yields a final event with no
usage field. -/
theorem sse_empty_content_counterexample :
    streamEvents "id" "m" 0 [ChatChunk.content "", ChatChunk.done "stop" none none] =
      [SSEOut.event (formatSSERoleChunk "id" "m" 0),
       SSEOut.event (formatSSEChunk "id" "m" 0 "" (some "stop") none), SSEOut.sentinel] ∧
    (streamEvents "id" "m" 0 [ChatChunk.content "", ChatChunk.done "stop" none none]).count
        (SSEOut.event (formatSSEChunk "id" "m" 0 "" none none)) = 0 ∧
    (formatSSEChunk "id" "m" 0 "" (some "stop") none).usage = none :=
  ⟨by decide, by decide, rfl⟩

/-- C9 (amended): for a canonical sequence of `content` chunks followed by
one `done` chunk, the streamed output is the role event, then exactly one
content event per content chunk with non-empty text, preserving order,
then the finish event with empty delta, finish_reason "stop" and the done
chunk's usage when present, then the literal terminator
`data: [DONE]\n\n`; the non-streaming response carries the concatenation
of all content texts in order, finish_reason "stop", and a usage object
(the done chunk's, or zeros). -/
theorem encoder_round_trip :
    (∀ (id model : String) (created : Int) (texts : List String) (fr : String)
        (sid : Option String) (usage : Option UsageInfo),
        streamEvents id model created
            (texts.map ChatChunk.content ++ [ChatChunk.done fr sid usage]) =
          SSEOut.event (formatSSERoleChunk id model created) ::
            ((texts.filter (fun t => t ≠ "")).map
              (fun t => SSEOut.event (formatSSEChunk id model created t none none)) ++
             [SSEOut.event (formatSSEChunk id model created "" (some "stop") usage),
              SSEOut.sentinel])) ∧
    formatSSEDone = "data: [DONE]\n\n" ∧
    (∀ (id model : String) (created : Int) (texts : List String) (fr : String)
        (sid : Option String) (usage : Option UsageInfo),
        handleNonStreaming id model created
            (texts.map ChatChunk.content ++ [ChatChunk.done fr sid usage]) =
          Except.ok (formatNonStreamingResponse id model created (concatAll texts)
            (usage.getD ⟨0, 0, 0⟩))) := by
  refine ⟨fun id model created texts fr sid usage => ?_, rfl,
    fun id model created texts fr sid usage => ?_⟩
  · unfold streamEvents
    rw [List.flatMap_append, stream_content_flatMap]
    simp [streamChunkOut]
  · unfold handleNonStreaming
    rw [nonStreamingFold_content]
    cases usage <;> simp [nonStreamingFold, Except.map]

/-- `List.contains` on string lists is membership. -/
theorem contains_iff (l : List String) (a : String) : l.contains a = true ↔ a ∈ l := by
  simp [List.contains, List.elem_iff]

theorem cleanEnv_lookup (backendId : String) :
    ∀ (env : List (String × String)) (k : String),
      (cleanEnv backendId env).lookup k =
        if k ∈ ALLOWED_KEYS ∨ k ∈ BACKEND_KEYS backendId then env.lookup k
        else none
  | [], k => by
      unfold cleanEnv
      by_cases hp : k ∈ ALLOWED_KEYS ∨ k ∈ BACKEND_KEYS backendId <;> simp [hp]
  | (k1, v1) :: rest, k => by
      have hrec := cleanEnv_lookup backendId rest k
      unfold cleanEnv at hrec ⊢
      rw [List.filter_cons]
      by_cases hp1 : (ALLOWED_KEYS.contains k1 || (BACKEND_KEYS backendId).contains k1) = true
      · rw [if_pos hp1]
        by_cases hk : k = k1
        · subst hk
          have hmem : k ∈ ALLOWED_KEYS ∨ k ∈ BACKEND_KEYS backendId := by
            rcases Bool.or_eq_true_iff.mp hp1 with h | h
            · exact Or.inl ((contains_iff _ _).mp h)
            · exact Or.inr ((contains_iff _ _).mp h)
          rw [if_pos hmem]
          simp [List.lookup]
        · simp only [List.lookup, beq_false_of_ne hk]
          exact hrec
      · rw [if_neg hp1, hrec]
        by_cases hm : k ∈ ALLOWED_KEYS ∨ k ∈ BACKEND_KEYS backendId
        · rw [if_pos hm, if_pos hm]
          have hk : k ≠ k1 := by
            intro e
            subst e
            apply hp1
            rcases hm with h | h
            · exact Bool.or_eq_true_iff.mpr (Or.inl ((contains_iff _ _).mpr h))
            · exact Bool.or_eq_true_iff.mpr (Or.inr ((contains_iff _ _).mpr h))
          simp [List.lookup, beq_false_of_ne hk]
        · rw [if_neg hm, if_neg hm]

/-- C10: `cleanEnv` keeps exactly the process-env entries whose key is in
`ALLOWED_KEYS` or in the backend's `BACKEND_KEYS`, with unchanged values;
and two environments that agree on every allow-listed key produce
subprocess environments with identical lookups — variables outside the
allow-list are never visible to the subprocess. -/
theorem cleanEnv_spec :
    (∀ (backendId : String) (env : List (String × String)) (k v : String),
        (k, v) ∈ cleanEnv backendId env ↔
          (k, v) ∈ env ∧ (k ∈ ALLOWED_KEYS ∨ k ∈ BACKEND_KEYS backendId)) ∧
    (∀ (backendId : String) (env1 env2 : List (String × String)),
        (∀ k, k ∈ ALLOWED_KEYS ∨ k ∈ BACKEND_KEYS backendId →
            env1.lookup k = env2.lookup k) →
        ∀ k, (cleanEnv backendId env1).lookup k = (cleanEnv backendId env2).lookup k) := by
  constructor
  · intro backendId env k v
    simp [cleanEnv, List.mem_filter, List.contains]
  · intro backendId env1 env2 hagree k
    rw [cleanEnv_lookup, cleanEnv_lookup]
    by_cases hp : k ∈ ALLOWED_KEYS ∨ k ∈ BACKEND_KEYS backendId
    · rw [if_pos hp, if_pos hp]
      exact hagree k hp
    · rw [if_neg hp, if_neg hp]

/-- Witness for `cleanEnv_spec`: a secret outside the allow-list is as
invisible as if it were absent. -/
theorem cleanEnv_witness :
    (cleanEnv "codex" [("SECRET_TOKEN", "a")]).lookup "SECRET_TOKEN" =
      (cleanEnv "codex" []).lookup "SECRET_TOKEN" :=
  cleanEnv_spec.2 "codex" [("SECRET_TOKEN", "a")] []
    (fun k hk => by
      rcases hk with h | h <;> fin_cases h <;> rfl)
    "SECRET_TOKEN"

end CliGateway
